import Mathlib

/-!
Shallow embedding of `src/bbi2c/i2c_master.c` (bit-bashed I2C master).

The line-driver primitives (`i2c_sda_set`, `i2c_scl_set`, `i2c_sda_get`,
`i2c_scl_wait`, `DELAY_US`) and the return-code constants live in headers
that are not part of the sources; the spec declares them an external
collaborator.  They are modelled as an explicit environment: the master's
driven levels on both lines, two oracle streams (the peer's SDA level at
successive reads, and the results of successive bounded clock waits), and
an event log recording every primitive call in order.  An open-drain line
reads as the conjunction of the master's drive and the peer's drive.

Every `i2c_master_*` function below is a statement-by-statement
translation of the corresponding C function.
-/

/-- Modelled from the spec: success code from the missing header.  The spec
states that bit-level operations overload the result channel with the bit
value 0/1 as a success encoding, and `i2c_master_send_bit` returns literal
`1` on its success path while `i2c_master_send_byte` tests that result
against `I2C_OK`; hence `I2C_OK = 1`. -/
def I2C_OK : Int := 1

/-- Modelled from the spec: bus-conflict error code from the missing
header.  Negative; the exact value is not in the sources. -/
def I2C_ERROR_CONFLICT : Int := -4

/-- Modelled from the spec: clock-stretch-timeout error code from the
missing header.  Negative; the exact value is not in the sources. -/
def I2C_ERROR_TIMEOUT : Int := -2

/-- One primitive call on the line-driver interface, as recorded in the
event log: a driven level change on SDA or SCL, a read of SDA (with the
value read), a bounded wait for SCL (with its result), or a settle delay. -/
inductive Ev where
  | sdaSet : Bool → Ev
  | sclSet : Bool → Ev
  | sdaGet : Bool → Ev
  | sclWait : Int → Ev
  | delay : Ev
deriving DecidableEq, Repr

/-- The environment of one bus instance: the master's last driven levels,
the two oracle streams (exhausted streams default to a released peer line
and to `I2C_OK` waits), and the log of primitive calls so far. -/
structure Env where
  sdaDrive : Bool
  sclDrive : Bool
  sdaPeer : List Bool
  sclWaitRes : List Int
  log : List Ev
deriving DecidableEq, Repr

/-- Modelled from the spec: bus configuration, naming the two GPIO lines.
Its contents are irrelevant to the core; only the reference identity is. -/
structure i2c_bus_cfg where
  scl_pio : Nat
  sda_pio : Nat
deriving DecidableEq, Repr

/-- Modelled from the spec: slave configuration, a 7-bit slave address
identifier and the number of sub-address bytes. -/
structure i2c_slave_cfg where
  id : Nat
  addr_bytes : Nat
deriving DecidableEq, Repr

/-- The device record (`i2c_dev_t`): binds one bus configuration to one
slave configuration. -/
structure i2c_dev where
  bus : i2c_bus_cfg
  slave : i2c_slave_cfg
deriving DecidableEq, Repr

/-- Modelled from the spec: drive or release SDA.  The device argument
selects the lines; in this per-device environment it is unused. -/
def i2c_sda_set (_dev : i2c_dev) (e : Env) (b : Bool) : Env :=
  { e with sdaDrive := b, log := e.log ++ [Ev.sdaSet b] }

/-- Modelled from the spec: drive or release SCL. -/
def i2c_scl_set (_dev : i2c_dev) (e : Env) (b : Bool) : Env :=
  { e with sclDrive := b, log := e.log ++ [Ev.sclSet b] }

/-- Modelled from the spec: read the SDA line.  Open drain: the line reads
high only if both the master and the peer release or drive it high.  Each
call consumes one element of the peer oracle (default: released). -/
def i2c_sda_get (_dev : i2c_dev) (e : Env) : Bool × Env :=
  let v := e.sdaPeer.headD true && e.sdaDrive
  (v, { e with sdaPeer := e.sdaPeer.tail, log := e.log ++ [Ev.sdaGet v] })

/-- Modelled from the spec: bounded poll of SCL until it reads high,
returning `I2C_OK` or the clock-stretch-timeout error.  Each call consumes
one element of the wait oracle (default: `I2C_OK`). -/
def i2c_scl_wait (_dev : i2c_dev) (e : Env) : Int × Env :=
  let r := e.sclWaitRes.headD I2C_OK
  (r, { e with sclWaitRes := e.sclWaitRes.tail, log := e.log ++ [Ev.sclWait r] })

/-- Modelled from the spec: fixed settle delay; time is not modelled, only
the call is logged. -/
def DELAY_US (e : Env) : Env :=
  { e with log := e.log ++ [Ev.delay] }

/-- Translation of `i2c_master_recv_bit`: release SDA, delay, drive SCL
high, wait for it (propagating a wait failure), sample SDA, delay, drive
SCL low, and return the sampled bit as the result value. -/
def i2c_master_recv_bit (dev : i2c_dev) (e : Env) : Int × Env :=
  let e1 := i2c_sda_set dev e true
  let e2 := DELAY_US e1
  let e3 := i2c_scl_set dev e2 true
  let (ret, e4) := i2c_scl_wait dev e3
  if ret ≠ I2C_OK then (ret, e4)
  else
    let (bit, e5) := i2c_sda_get dev e4
    let e6 := DELAY_US e5
    let e7 := i2c_scl_set dev e6 false
    ((if bit then 1 else 0), e7)

/-- Translation of `i2c_master_send_bit`: drive SDA to the bit, drive SCL
high, wait for it (propagating a wait failure), check arbitration (a 1 bit
reading back 0 returns 0 with no further line change), delay, drive SCL
low, return 1. -/
def i2c_master_send_bit (dev : i2c_dev) (bit : Bool) (e : Env) : Int × Env :=
  let e1 := i2c_sda_set dev e bit
  let e2 := i2c_scl_set dev e1 true
  let (ret, e3) := i2c_scl_wait dev e2
  if ret ≠ I2C_OK then (ret, e3)
  else
    if bit then
      let (v, e4) := i2c_sda_get dev e3
      if !v then (0, e4)
      else
        let e5 := DELAY_US e4
        let e6 := i2c_scl_set dev e5 false
        (1, e6)
    else
      let e5 := DELAY_US e3
      let e6 := i2c_scl_set dev e5 false
      (1, e6)

/-- Translation of `i2c_master_recv_ack`. -/
def i2c_master_recv_ack (dev : i2c_dev) (e : Env) : Int × Env :=
  i2c_master_recv_bit dev e

/-- Translation of `i2c_master_send_ack`. -/
def i2c_master_send_ack (dev : i2c_dev) (e : Env) : Int × Env :=
  i2c_master_send_bit dev false e

/-- Translation of `i2c_master_send_nack`. -/
def i2c_master_send_nack (dev : i2c_dev) (e : Env) : Int × Env :=
  i2c_master_send_bit dev true e

/-- The loop of `i2c_master_send_byte`, with the iteration count explicit:
`i` iterations remain; each sends bit `(data >> 7) & 1` and shifts `data`
left one place (as a `uint8_t`, i.e. modulo 256), bailing out on any
result other than `I2C_OK`; after the loop, `i2c_master_recv_ack`. -/
def sendByteLoop (dev : i2c_dev) (data : Nat) (i : Nat) (e : Env) : Int × Env :=
  match i with
  | 0 => i2c_master_recv_ack dev e
  | i + 1 =>
    let (ret, e1) := i2c_master_send_bit dev ((data >>> 7) &&& 1 == 1) e
    if ret ≠ I2C_OK then (ret, e1)
    else sendByteLoop dev ((data <<< 1) % 256) i e1

/-- Translation of `i2c_master_send_byte`; the `uint8_t` parameter
truncates the argument modulo 256. -/
def i2c_master_send_byte (dev : i2c_dev) (data : Nat) (e : Env) : Int × Env :=
  sendByteLoop dev (data % 256) 8 e

/-- The loop of `i2c_master_recv_byte`: `i` receptions remain, `d` is the
byte assembled so far.  Each iteration bails out with no write when
`recv_bit` returns anything other than `I2C_OK`, else shifts the result
in (as a `uint8_t`).  After 8 receptions the assembled byte is written
(second component `some d`) and `send_ack`'s result is returned. -/
def recvByteLoop (dev : i2c_dev) (d : Nat) (i : Nat) (e : Env) :
    Int × Option Nat × Env :=
  match i with
  | 0 =>
    let (ret, e1) := i2c_master_send_ack dev e
    (ret, some d, e1)
  | i + 1 =>
    let (ret, e1) := i2c_master_recv_bit dev e
    if ret ≠ I2C_OK then (ret, none, e1)
    else recvByteLoop dev (((d <<< 1) ||| ret.toNat) % 256) i e1

/-- Translation of `i2c_master_recv_byte`; the write through the output
pointer is modelled as the `Option Nat` component (`none` = untouched). -/
def i2c_master_recv_byte (dev : i2c_dev) (e : Env) : Int × Option Nat × Env :=
  recvByteLoop dev 0 8 e

/-- Translation of `i2c_master_send_start`: if SDA does not read high,
return the bus-conflict error at once; otherwise drive SDA low, delay,
drive SCL low, return `I2C_OK`. -/
def i2c_master_send_start (dev : i2c_dev) (e : Env) : Int × Env :=
  let (v, e1) := i2c_sda_get dev e
  if !v then (I2C_ERROR_CONFLICT, e1)
  else
    let e2 := i2c_sda_set dev e1 false
    let e3 := DELAY_US e2
    let e4 := i2c_scl_set dev e3 false
    (I2C_OK, e4)

/-- Translation of `i2c_master_send_stop`: drive SDA low, delay, drive SCL
high, wait for it (discarding the result), delay, release SDA, return
`I2C_OK` unconditionally. -/
def i2c_master_send_stop (dev : i2c_dev) (e : Env) : Int × Env :=
  let e1 := i2c_sda_set dev e false
  let e2 := DELAY_US e1
  let e3 := i2c_scl_set dev e2 true
  let (_, e4) := i2c_scl_wait dev e3
  let e5 := DELAY_US e4
  let e6 := i2c_sda_set dev e5 true
  (I2C_OK, e6)

/-- Translation of `i2c_master_send_addr`: send the single byte
`(slave id << 1) | (read ? 1 : 0)`. -/
def i2c_master_send_addr (dev : i2c_dev) (read : Bool) (e : Env) : Int × Env :=
  i2c_master_send_byte dev ((dev.slave.id <<< 1) ||| (if read then 1 else 0)) e

/-- The action bitmask `i2c_action_t`; modelled from the spec as four
orthogonal, combinable flags. -/
structure i2c_action where
  start : Bool
  stop : Bool
  read : Bool
  write : Bool
deriving DecidableEq, Repr

/-- The data loop of `i2c_master_transfer`: `remaining` bytes left,
starting at buffer index `idx`.  Sends `buf[idx]` when the WRITE flag is
set, else receives into `buf[idx]`; bails out with `some ret` on the
first result other than `I2C_OK`. -/
def transferData (dev : i2c_dev) (write : Bool) (buf : List Nat)
    (idx remaining : Nat) (e : Env) : Option Int × List Nat × Env :=
  match remaining with
  | 0 => (none, buf, e)
  | r + 1 =>
    if write then
      let (ret, e1) := i2c_master_send_byte dev (buf.getD idx 0) e
      if ret ≠ I2C_OK then (some ret, buf, e1)
      else transferData dev write buf (idx + 1) r e1
    else
      let (ret, w, e1) := i2c_master_recv_byte dev e
      let buf1 := match w with
        | some d => buf.set idx d
        | none => buf
      if ret ≠ I2C_OK then (some ret, buf1, e1)
      else transferData dev write buf1 (idx + 1) r e1

/-- Translation of `i2c_master_transfer`: optional start condition plus
address byte, then the data loop, then an optional stop condition; any
phase returning other than `I2C_OK` aborts with that value; on full
success the count of bytes processed (the `uint8_t` size argument) is
returned.  The buffer is returned alongside (receives write into it). -/
def i2c_master_transfer (dev : i2c_dev) (buffer : List Nat) (size : Nat)
    (action : i2c_action) (e : Env) : Int × List Nat × Env :=
  let size := size % 256
  let startPhase : Int × Env :=
    if action.start then
      let (ret, e1) := i2c_master_send_start dev e
      if ret ≠ I2C_OK then (ret, e1)
      else i2c_master_send_addr dev action.read e1
    else (I2C_OK, e)
  let (ret0, e1) := startPhase
  if ret0 ≠ I2C_OK then (ret0, buffer, e1)
  else
    match transferData dev action.write buffer 0 size e1 with
    | (some ret, buf, e2) => (ret, buf, e2)
    | (none, buf, e2) =>
      if action.stop then
        let (ret, e3) := i2c_master_send_stop dev e2
        if ret ≠ I2C_OK then (ret, buf, e3)
        else ((size : Int), buf, e3)
      else ((size : Int), buf, e2)

/-- Modelled: the in-memory byte representation of an `i2c_addr_t` value,
`n` bytes, least significant byte first (the platform layout of the value
whose address is passed to the first transfer of the addressed
operations). -/
def addrBytes (addr n : Nat) : List Nat :=
  (List.range n).map (fun k => (addr >>> (8 * k)) % 256)

/-- Translation of `i2c_master_addr_read`: a START+WRITE transfer of the
sub-address bytes, then — if that did not return a negative value — a
WRITE+STOP transfer of the payload buffer. -/
def i2c_master_addr_read (dev : i2c_dev) (addr : Nat) (buffer : List Nat)
    (size : Nat) (e : Env) : Int × List Nat × Env :=
  let (ret, _, e1) := i2c_master_transfer dev (addrBytes addr dev.slave.addr_bytes)
      dev.slave.addr_bytes ⟨true, false, false, true⟩ e
  if ret < 0 then (ret, buffer, e1)
  else i2c_master_transfer dev buffer size ⟨false, true, false, true⟩ e1

/-- Translation of `i2c_master_addr_write`: a START+WRITE transfer of the
sub-address bytes, then — if that did not return a negative value — a
WRITE+STOP transfer of the payload buffer. -/
def i2c_master_addr_write (dev : i2c_dev) (addr : Nat) (buffer : List Nat)
    (size : Nat) (e : Env) : Int × List Nat × Env :=
  let (ret, _, e1) := i2c_master_transfer dev (addrBytes addr dev.slave.addr_bytes)
      dev.slave.addr_bytes ⟨true, false, false, true⟩ e
  if ret < 0 then (ret, buffer, e1)
  else i2c_master_transfer dev buffer size ⟨false, true, false, true⟩ e1

/-!  Specification-side helpers: concrete environments, the primitive-call
footprints of the bit operations in a well-behaved environment, bit lists,
and the electrical definition of start and stop conditions (an SDA
transition while SCL is high) used to count them in an event log. -/

/-- A fixed device for concrete evaluations; the core never reads the bus
configuration and only `send_addr` reads the slave identifier. -/
def dev0 : i2c_dev := ⟨⟨0, 1⟩, ⟨0x50, 1⟩⟩

/-- The idle-bus environment: both lines released, both oracle streams
empty (peer released, every clock wait succeeds), empty log. -/
def idleEnv : Env := ⟨true, true, [], [], []⟩

/-- Environment at the start of a byte transfer: SCL driven low (the
documented precondition of the bit operations), otherwise idle. -/
def lowEnv : Env := ⟨true, false, [], [], []⟩

/-- The 8 bits of a byte, most significant first. -/
def msbList (b : Nat) : List Bool :=
  [b.testBit 7, b.testBit 6, b.testBit 5, b.testBit 4,
   b.testBit 3, b.testBit 2, b.testBit 1, b.testBit 0]

/-- The bits the `send_byte` loop extracts: `i` iterations from value `d`,
each taking `(d >> 7) & 1` and shifting `d` left (mod 256). -/
def msbBits (d i : Nat) : List Bool :=
  match i with
  | 0 => []
  | i + 1 => ((d >>> 7) &&& 1 == 1) :: msbBits ((d <<< 1) % 256) i

/-- Primitive-call footprint of a successful `send_bit` in an environment
whose oracle streams are empty: the arbitration read happens only for a 1
bit and then reads the master's own drive. -/
def sendBitEvs (b : Bool) : List Ev :=
  [Ev.sdaSet b, Ev.sclSet true, Ev.sclWait I2C_OK]
    ++ (if b then [Ev.sdaGet true] else []) ++ [Ev.delay, Ev.sclSet false]

/-- Primitive-call footprint of a `recv_bit` in an environment whose
oracle streams are empty (the sample reads the released line as high). -/
def recvBitEvs : List Ev :=
  [Ev.sdaSet true, Ev.delay, Ev.sclSet true, Ev.sclWait I2C_OK,
   Ev.sdaGet true, Ev.delay, Ev.sclSet false]

/-- Footprint of a successful `send_byte` of value `n` in an environment
with empty oracle streams: 8 `send_bit` footprints, most significant bit
first, then the `recv_ack` footprint. -/
def byteEvs (n : Nat) : List Ev :=
  (msbBits (n % 256) 8).flatMap sendBitEvs ++ recvBitEvs

/-- Footprint of the data loop of a WRITE transfer: one `send_byte`
footprint per remaining byte. -/
def writeEvs (buf : List Nat) (idx r : Nat) : List Ev :=
  match r with
  | 0 => []
  | r + 1 => byteEvs (buf.getD idx 0) ++ writeEvs buf (idx + 1) r

/-- Footprint of a successful `send_start` from the idle bus. -/
def startEvs : List Ev :=
  [Ev.sdaGet true, Ev.sdaSet false, Ev.delay, Ev.sclSet false]

/-- Footprint of `send_stop` in an environment with empty oracle
streams. -/
def stopEvs : List Ev :=
  [Ev.sdaSet false, Ev.delay, Ev.sclSet true, Ev.sclWait I2C_OK,
   Ev.delay, Ev.sdaSet true]

/-- The values the master drives onto SDA, in order, in an event log. -/
def sdaSetsOf (l : List Ev) : List Bool :=
  l.filterMap (fun ev => match ev with | Ev.sdaSet v => some v | _ => none)

/-- State of the start/stop-condition counter: current line levels and the
number of start and stop conditions seen so far. -/
structure CondCount where
  scl : Bool
  sda : Bool
  starts : Nat
  stops : Nat
deriving DecidableEq, Repr

/-- One step of the condition counter.  Per the wire protocol, a start
condition is SDA falling while SCL is high, and a stop condition is SDA
rising while SCL is high. -/
def countStep (s : CondCount) (ev : Ev) : CondCount :=
  match ev with
  | Ev.sdaSet b =>
    if s.scl && s.sda && !b then
      { s with sda := b, starts := s.starts + 1 }
    else if s.scl && !s.sda && b then
      { s with sda := b, stops := s.stops + 1 }
    else
      { s with sda := b }
  | Ev.sclSet b => { s with scl := b }
  | _ => s

/-- Run the condition counter over a log. -/
def countConds (l : List Ev) (s : CondCount) : CondCount :=
  l.foldl countStep s

/-- The counter state for an idle bus with nothing counted yet. -/
def idleCond : CondCount := ⟨true, true, 0, 0⟩

/-- The back-to-back loop environment for byte `b`: a receiver whose
sampled SDA values are exactly the bits a `send_byte` of `b` drives onto
the line (the first 8 SDA drives of its log), with SCL initially low. -/
def loopEnvOf (b : Nat) : Env :=
  ⟨true, false, (sdaSetsOf (i2c_master_send_byte dev0 b lowEnv).2.log).take 8,
   [], []⟩

/-- A peer that acknowledges a sent byte `b`: it releases SDA for each of
the sender's arbitration reads (one per 1 bit of `b`) and drives SDA low
for the acknowledge sample. -/
def ackEnvOf (b : Nat) : Env :=
  ⟨true, false, List.replicate ((msbList b).count true) true ++ [false], [], []⟩

/-- Footprint of the `recv_ack` of `send_byte` against an acknowledging
peer: the sample reads low. -/
def ackRecvEvs : List Ev :=
  [Ev.sdaSet true, Ev.delay, Ev.sclSet true, Ev.sclWait I2C_OK,
   Ev.sdaGet false, Ev.delay, Ev.sclSet false]

/-- The START+WRITE+STOP action mask. -/
def actSWS : i2c_action := ⟨true, true, false, true⟩

/-- The registry capacity `I2C_DEVICES_NUM` (default value from the
source). -/
def I2C_DEVICES_NUM : Nat := 4

/-- The registry state: the static slot counter `i2c_devices_num` and the
filled slots of the static `i2c_devices` table. -/
structure RegState where
  num : Nat
  devices : List i2c_dev
deriving DecidableEq, Repr

/-- Translation of `i2c_master_init`: when the counter has reached the
capacity return the null handle; otherwise fill the next slot with the
two configuration references, bump the counter, release both lines, and
return the slot's handle (the pointer `i2c_devices + num`, modelled as
the slot index). -/
def i2c_master_init (bus_cfg : i2c_bus_cfg) (slave_cfg : i2c_slave_cfg)
    (r : RegState) (e : Env) : Option Nat × RegState × Env :=
  if r.num ≥ I2C_DEVICES_NUM then (none, r, e)
  else
    let dev : i2c_dev := { bus := bus_cfg, slave := slave_cfg }
    let r1 : RegState := { num := r.num + 1, devices := r.devices ++ [dev] }
    let e1 := i2c_sda_set dev e true
    let e2 := i2c_scl_set dev e1 true
    (some r.num, r1, e2)

/-!  Footprint lemmas for the bit and byte operations.  They characterise
each operation's result, final line drives, oracle consumption and logged
primitive calls in environments whose clock-wait oracle is exhausted
(every wait succeeds). -/

/-- Unfolding of one iteration of the `send_byte` loop whose bit send
succeeded with result 1 = `I2C_OK`. -/
theorem sendByteLoop_step (dev : i2c_dev) (d i : Nat) (e e1 : Env)
    (h : i2c_master_send_bit dev ((d >>> 7) &&& 1 == 1) e = (1, e1)) :
    sendByteLoop dev d (i + 1) e = sendByteLoop dev ((d <<< 1) % 256) i e1 := by
  simp only [sendByteLoop, h, I2C_OK]
  simp

/-- A `send_bit` of a 0 bit with all clock waits succeeding: returns 1,
performs no arbitration read, leaves SCL driven low and SDA driven low. -/
theorem send_bit_false (dev : i2c_dev) (dS cS : Bool) (peer : List Bool)
    (l : List Ev) :
    i2c_master_send_bit dev false ⟨dS, cS, peer, [], l⟩
      = (1, ⟨false, false, peer, [], l ++ sendBitEvs false⟩) := by
  simp [i2c_master_send_bit, i2c_sda_set, i2c_scl_set, i2c_sda_get,
    i2c_scl_wait, DELAY_US, sendBitEvs, I2C_OK]

/-- A `send_bit` of a 1 bit whose arbitration read sees a released peer
line: returns 1, consumes one peer-oracle element, leaves SCL driven low
and SDA driven high. -/
theorem send_bit_true (dev : i2c_dev) (dS cS : Bool) (peer : List Bool)
    (l : List Ev) (h : peer.headD true = true) :
    i2c_master_send_bit dev true ⟨dS, cS, peer, [], l⟩
      = (1, ⟨true, false, peer.tail, [], l ++ sendBitEvs true⟩) := by
  rw [List.headD_eq_head?] at h
  simp [i2c_master_send_bit, i2c_sda_set, i2c_scl_set, i2c_sda_get,
    i2c_scl_wait, DELAY_US, sendBitEvs, I2C_OK, h]

/-- A `recv_bit` that samples a released peer line: returns 1, consumes
one peer-oracle element, leaves SCL driven low and SDA released. -/
theorem recv_bit_high (dev : i2c_dev) (dS cS : Bool) (peer : List Bool)
    (l : List Ev) (h : peer.headD true = true) :
    i2c_master_recv_bit dev ⟨dS, cS, peer, [], l⟩
      = (1, ⟨true, false, peer.tail, [], l ++ recvBitEvs⟩) := by
  rw [List.headD_eq_head?] at h
  simp [i2c_master_recv_bit, i2c_sda_set, i2c_scl_set, i2c_sda_get,
    i2c_scl_wait, DELAY_US, recvBitEvs, I2C_OK, h]

/-- A `recv_bit` that samples a peer-driven-low line: returns the bit 0,
consumes one peer-oracle element. -/
theorem recv_bit_low (dev : i2c_dev) (dS cS : Bool) (rest : List Bool)
    (l : List Ev) :
    i2c_master_recv_bit dev ⟨dS, cS, false :: rest, [], l⟩
      = (0, ⟨true, false, rest, [], l ++ ackRecvEvs⟩) := by
  simp [i2c_master_recv_bit, i2c_sda_set, i2c_scl_set, i2c_sda_get,
    i2c_scl_wait, DELAY_US, ackRecvEvs, I2C_OK]

/-- The `send_byte` loop in an environment with both oracles exhausted
(a fully released peer): every bit send succeeds, the acknowledge sample
reads the released line as 1 = `I2C_OK`, and the log grows by the
per-bit footprints, most significant bit first, then the ack
footprint. -/
theorem sendByteLoop_clean (dev : i2c_dev) :
    ∀ (i d : Nat) (dS cS : Bool) (l : List Ev),
    sendByteLoop dev d i ⟨dS, cS, [], [], l⟩
      = (1, ⟨true, false, [], [],
          l ++ ((msbBits d i).flatMap sendBitEvs ++ recvBitEvs)⟩) := by
  intro i
  induction i with
  | zero =>
    intro d dS cS l
    simp only [sendByteLoop, i2c_master_recv_ack]
    rw [recv_bit_high dev dS cS [] l rfl]
    simp [msbBits]
  | succ i ih =>
    intro d dS cS l
    cases hb : ((d >>> 7) &&& 1 == 1) with
    | true =>
      rw [sendByteLoop_step dev d i _ _ (by rw [hb]; exact send_bit_true dev dS cS [] l rfl)]
      simp only [List.tail_nil]
      rw [ih, msbBits, hb]
      simp [List.append_assoc]
    | false =>
      rw [sendByteLoop_step dev d i _ _ (by rw [hb]; exact send_bit_false dev dS cS [] l)]
      rw [ih, msbBits, hb]
      simp [List.append_assoc]

/-- `send_byte` in an environment with both oracles exhausted: succeeds
with result 1 and logs exactly the byte footprint. -/
theorem send_byte_clean (dev : i2c_dev) (n : Nat) (dS cS : Bool)
    (l : List Ev) :
    i2c_master_send_byte dev n ⟨dS, cS, [], [], l⟩
      = (1, ⟨true, false, [], [], l ++ byteEvs n⟩) := by
  simp only [i2c_master_send_byte, byteEvs, sendByteLoop_clean]

/-- The `send_byte` loop against an acknowledging peer: the peer oracle
releases the line for each arbitration read (one per 1 bit of the
remaining iterations) and then drives the acknowledge sample low; the
loop performs the bit sends most significant bit first, then the ack
reception, and returns the sampled acknowledge bit 0. -/
theorem sendByteLoop_ack (dev : i2c_dev) :
    ∀ (i d : Nat) (dS cS : Bool) (l : List Ev),
    sendByteLoop dev d i
        ⟨dS, cS, List.replicate ((msbBits d i).count true) true ++ [false], [], l⟩
      = (0, ⟨true, false, [], [],
          l ++ ((msbBits d i).flatMap sendBitEvs ++ ackRecvEvs)⟩) := by
  intro i
  induction i with
  | zero =>
    intro d dS cS l
    simp only [msbBits, List.count_nil, List.replicate_zero, List.nil_append]
    simp only [sendByteLoop, i2c_master_recv_ack]
    rw [recv_bit_low dev dS cS [] l]
    simp
  | succ i ih =>
    intro d dS cS l
    cases hb : ((d >>> 7) &&& 1 == 1) with
    | true =>
      have hc : (msbBits d (i + 1)).count true
          = (msbBits ((d <<< 1) % 256) i).count true + 1 := by
        rw [msbBits, hb, List.count_cons]
        simp
      rw [hc, List.replicate_succ, List.cons_append]
      rw [sendByteLoop_step dev d i _ _
        (by rw [hb]; exact send_bit_true dev dS cS _ l rfl)]
      simp only [List.tail_cons]
      rw [ih, msbBits, hb]
      simp [List.append_assoc]
    | false =>
      have hc : (msbBits d (i + 1)).count true
          = (msbBits ((d <<< 1) % 256) i).count true := by
        rw [msbBits, hb, List.count_cons]
        simp
      rw [hc]
      rw [sendByteLoop_step dev d i _ _
        (by rw [hb]; exact send_bit_false dev dS cS _ l)]
      rw [ih, msbBits, hb]
      simp [List.append_assoc]

/-- A `send_start` from an idle bus with a released peer: succeeds, drives
SDA low and then SCL low. -/
theorem send_start_clean (dev : i2c_dev) (cS : Bool) (l : List Ev) :
    i2c_master_send_start dev ⟨true, cS, [], [], l⟩
      = (I2C_OK, ⟨false, false, [], [], l ++ startEvs⟩) := by
  simp [i2c_master_send_start, i2c_sda_set, i2c_scl_set, i2c_sda_get,
    DELAY_US, startEvs]

/-- A `send_stop` with all clock waits succeeding: returns `I2C_OK` and
leaves both lines released. -/
theorem send_stop_clean (dev : i2c_dev) (dS cS : Bool) (l : List Ev) :
    i2c_master_send_stop dev ⟨dS, cS, [], [], l⟩
      = (I2C_OK, ⟨true, true, [], [], l ++ stopEvs⟩) := by
  simp [i2c_master_send_stop, i2c_sda_set, i2c_scl_set, i2c_scl_wait,
    DELAY_US, stopEvs]

/-- The WRITE data loop of `transfer` in an environment with both oracles
exhausted: every byte send succeeds (each acknowledge sample reads the
released line as 1 = `I2C_OK`), the buffer is untouched, and the log
grows by one byte footprint per remaining byte. -/
theorem transferData_clean_write (dev : i2c_dev) :
    ∀ (r : Nat) (buf : List Nat) (idx : Nat) (l : List Ev),
    transferData dev true buf idx r ⟨true, false, [], [], l⟩
      = (none, buf, ⟨true, false, [], [], l ++ writeEvs buf idx r⟩) := by
  intro r
  induction r with
  | zero =>
    intro buf idx l
    simp [transferData, writeEvs]
  | succ r ih =>
    intro buf idx l
    simp only [transferData, send_byte_clean dev (buf.getD idx 0) true false l,
      I2C_OK, writeEvs]
    simp [ih, List.append_assoc]

/-- A full START+WRITE+STOP `transfer` from the idle bus with a released
peer: every phase succeeds, the returned count is the (truncated) size
argument, the buffer is untouched, and the log is exactly one start
footprint, the address-byte footprint, one byte footprint per data byte,
and one stop footprint. -/
theorem transfer_sws_clean (dev : i2c_dev) (buf : List Nat) (size : Nat) :
    i2c_master_transfer dev buf size actSWS idleEnv
      = (((size % 256 : Nat) : Int), buf,
          ⟨true, true, [], [],
            startEvs ++ (byteEvs ((dev.slave.id <<< 1) ||| 0)
              ++ (writeEvs buf 0 (size % 256) ++ stopEvs))⟩) := by
  have hstart := send_start_clean dev true ([] : List Ev)
  have haddr := send_byte_clean dev (dev.slave.id <<< 1) false false startEvs
  have hdata := transferData_clean_write dev (size % 256) buf 0
    (startEvs ++ byteEvs (dev.slave.id <<< 1))
  have hstop := send_stop_clean dev true false
    (startEvs ++ (byteEvs (dev.slave.id <<< 1) ++ writeEvs buf 0 (size % 256)))
  simp [i2c_master_transfer, actSWS, idleEnv, i2c_master_send_addr,
    hstart, haddr, hdata, hstop, I2C_OK, List.append_assoc]

/-- The condition counter distributes over log concatenation. -/
theorem countConds_append (l1 l2 : List Ev) (s : CondCount) :
    countConds (l1 ++ l2) s = countConds l2 (countConds l1 s) := by
  simp [countConds, List.foldl_append]

/-- A `send_bit` footprint, entered with SCL low, produces no start or
stop condition and leaves SCL low and SDA at the sent bit. -/
theorem countConds_sendBitEvs (b s : Bool) (a p : Nat) :
    countConds (sendBitEvs b) ⟨false, s, a, p⟩ = ⟨false, b, a, p⟩ := by
  cases b <;> rfl

/-- A `recv_bit` footprint, entered with SCL low, produces no start or
stop condition and leaves SCL low and SDA released. -/
theorem countConds_recvBitEvs (s : Bool) (a p : Nat) :
    countConds recvBitEvs ⟨false, s, a, p⟩ = ⟨false, true, a, p⟩ := rfl

/-- An acknowledged-reception footprint behaves like `recv_bit`'s for the
counter. -/
theorem countConds_ackRecvEvs (s : Bool) (a p : Nat) :
    countConds ackRecvEvs ⟨false, s, a, p⟩ = ⟨false, true, a, p⟩ := rfl

/-- A run of `send_bit` footprints, entered with SCL low, produces no
start or stop condition. -/
theorem countConds_flatMap_sendBit :
    ∀ (bits : List Bool) (s : Bool) (a p : Nat),
    countConds (bits.flatMap sendBitEvs) ⟨false, s, a, p⟩
      = ⟨false, bits.getLastD s, a, p⟩ := by
  intro bits
  induction bits with
  | nil => intro s a p; rfl
  | cons b bs ih =>
    intro s a p
    rw [List.flatMap_cons, countConds_append, countConds_sendBitEvs,
      ih b a p, List.getLastD_cons]

/-- A full byte footprint, entered with SCL low, produces no start or
stop condition and leaves SCL low. -/
theorem countConds_byteEvs (n : Nat) (s : Bool) (a p : Nat) :
    countConds (byteEvs n) ⟨false, s, a, p⟩ = ⟨false, true, a, p⟩ := by
  rw [byteEvs, countConds_append, countConds_flatMap_sendBit,
    countConds_recvBitEvs]

/-- The WRITE data-loop footprint, entered with SCL low, produces no
start or stop condition and leaves SCL low. -/
theorem countConds_writeEvs :
    ∀ (r : Nat) (buf : List Nat) (idx : Nat) (s : Bool) (a p : Nat),
    countConds (writeEvs buf idx r) ⟨false, s, a, p⟩
      = ⟨false, if r = 0 then s else true, a, p⟩ := by
  intro r
  induction r with
  | zero => intro buf idx s a p; rfl
  | succ r ih =>
    intro buf idx s a p
    rw [writeEvs, countConds_append, countConds_byteEvs, ih]
    simp

/-- The successful start-condition footprint, entered on an idle bus,
produces exactly one start condition and leaves SCL and SDA driven low. -/
theorem countConds_startEvs (a p : Nat) :
    countConds startEvs ⟨true, true, a, p⟩ = ⟨false, false, a + 1, p⟩ := rfl

/-- The stop-condition footprint, entered with SCL low, produces exactly
one stop condition and leaves both lines released. -/
theorem countConds_stopEvs (s : Bool) (a p : Nat) :
    countConds stopEvs ⟨false, s, a, p⟩ = ⟨true, true, a, p + 1⟩ := rfl

/-- The full log of a successful START+WRITE+STOP transfer contains
exactly one start condition and one stop condition. -/
theorem countConds_transfer_sws (dev : i2c_dev) (buf : List Nat) (size : Nat) :
    countConds (i2c_master_transfer dev buf size actSWS idleEnv).2.2.log idleCond
      = ⟨true, true, 1, 1⟩ := by
  rw [transfer_sws_clean]
  show countConds _ (⟨true, true, 0, 0⟩ : CondCount) = _
  rw [countConds_append, countConds_startEvs, countConds_append,
    countConds_byteEvs, countConds_append, countConds_writeEvs,
    countConds_stopEvs]

set_option maxRecDepth 100000

/-- The loop extracts exactly the binary representation of the byte, most
significant bit first. -/
theorem msbBits_eq_msbList : ∀ b : Fin 256, msbBits ((b : Nat) % 256) 8 = msbList (b : Nat) := by
  decide

/-- C1: for every byte value 0-255, sending the byte with
`i2c_master_send_byte` over a simulated back-to-back loop (each bit driven
by send is the bit sampled by a matching `i2c_master_recv_byte` on the
other side) should cause `recv_byte` to write exactly the original byte to
its output location.  The code fails this: `recv_byte` compares the
received bit value against `I2C_OK = 1`, so the first received 0 bit is
mistaken for a non-success status and aborts the reception with no write.
Evaluated here at the failing input, byte `0x00`: the eight bits driven by
`send_byte 0` are sampled by `recv_byte`, which returns 0 and writes
nothing; the round trip succeeds only for `0xFF` (all bits 1). -/
theorem c1_roundtrip_fails_eval :
    (sdaSetsOf (i2c_master_send_byte dev0 0 lowEnv).2.log).take 8 = msbList 0
      ∧ (i2c_master_recv_byte dev0 (loopEnvOf 0)).1 = 0
      ∧ (i2c_master_recv_byte dev0 (loopEnvOf 0)).2.1 = none
      ∧ (i2c_master_recv_byte dev0 (loopEnvOf 255)).2.1 = some 255 := by
  refine ⟨by decide, by decide, by decide, by decide⟩

/-- C2: for every byte value 0-255, `i2c_master_send_byte` against a peer
that acknowledges performs exactly 8 `send_bit` transfers, most
significant bit first, whose bit arguments are the binary representation
of the byte, and then receives the acknowledge bit: its primitive-call
log is precisely the concatenation of the 8 per-bit send footprints in
MSB-first order followed by the acknowledge-reception footprint, and its
result is the sampled acknowledge bit. -/
theorem c2_send_byte_msb_first (b : Fin 256) :
    i2c_master_send_byte dev0 (b : Nat) (ackEnvOf (b : Nat))
      = (0, ⟨true, false, [], [],
          (msbList (b : Nat)).flatMap sendBitEvs ++ ackRecvEvs⟩) := by
  have h := sendByteLoop_ack dev0 8 ((b : Nat) % 256) true false []
  rw [msbBits_eq_msbList b] at h
  simp only [i2c_master_send_byte, ackEnvOf]
  simpa using h

/-- C3: for every device handle and 3-byte buffer, `i2c_master_transfer`
invoked with action flags START|WRITE|STOP, when no phase fails (modelled
by the idle-bus environment with a released peer and succeeding clock
waits), returns 3 and its log contains exactly one start condition and
exactly one stop condition (SDA falling, resp. rising, while SCL is
high); in general, on full success, transfer returns its size argument. -/
theorem c3_transfer_full_success (dev : i2c_dev) (b0 b1 b2 : Nat)
    (buf : List Nat) (size : Nat) (hsize : size < 256) :
    ((i2c_master_transfer dev [b0, b1, b2] 3 actSWS idleEnv).1 = 3
      ∧ (countConds (i2c_master_transfer dev [b0, b1, b2] 3 actSWS idleEnv).2.2.log
          idleCond).starts = 1
      ∧ (countConds (i2c_master_transfer dev [b0, b1, b2] 3 actSWS idleEnv).2.2.log
          idleCond).stops = 1)
    ∧ (i2c_master_transfer dev buf size actSWS idleEnv).1 = size := by
  refine ⟨⟨?_, ?_, ?_⟩, ?_⟩
  · rw [transfer_sws_clean]
    norm_num
  · rw [countConds_transfer_sws]
  · rw [countConds_transfer_sws]
  · rw [transfer_sws_clean]
    simp [Nat.mod_eq_of_lt hsize]

/-- Witness for C3 at a concrete device, buffer and size. -/
theorem c3_witness :
    ((i2c_master_transfer dev0 [1, 2, 3] 3 actSWS idleEnv).1 = 3
      ∧ (countConds (i2c_master_transfer dev0 [1, 2, 3] 3 actSWS idleEnv).2.2.log
          idleCond).starts = 1
      ∧ (countConds (i2c_master_transfer dev0 [1, 2, 3] 3 actSWS idleEnv).2.2.log
          idleCond).stops = 1)
    ∧ (i2c_master_transfer dev0 [5] 1 actSWS idleEnv).1 = 1 :=
  c3_transfer_full_success dev0 1 2 3 [5] 1 (by decide)

/-- C4: for every device handle, address value, buffer and size,
`i2c_master_addr_read` issues its second transfer phase with WRITE (not
READ) direction flags — the action mask of the second transfer is
start=false, stop=true, read=false, write=true — making `addr_read`
perform exactly the same sequence of operations as `i2c_master_addr_write`
on the same arguments (the two functions are extensionally equal). -/
theorem c4_addr_read_eq_addr_write (dev : i2c_dev) (addr : Nat)
    (buffer : List Nat) (size : Nat) (e : Env) :
    i2c_master_addr_read dev addr buffer size e
        = i2c_master_addr_write dev addr buffer size e
      ∧ i2c_master_addr_read dev addr buffer size e
        = (let r1 := i2c_master_transfer dev (addrBytes addr dev.slave.addr_bytes)
              dev.slave.addr_bytes ⟨true, false, false, true⟩ e
           if r1.1 < 0 then (r1.1, buffer, r1.2.2)
           else i2c_master_transfer dev buffer size ⟨false, true, false, true⟩ r1.2.2) :=
  ⟨rfl, rfl⟩

/-- C5: for every device handle, `i2c_master_send_start` returns the
bus-conflict error without performing any wait or line transition (the
only logged primitive is the SDA read; both driven levels and the wait
oracle are untouched) whenever the data line reads low at invocation;
otherwise it drives data low, then clock low, and returns success. -/
theorem c5_send_start (dev : i2c_dev) (e : Env) :
    ((e.sdaPeer.headD true && e.sdaDrive) = false →
      i2c_master_send_start dev e
        = (I2C_ERROR_CONFLICT,
            ⟨e.sdaDrive, e.sclDrive, e.sdaPeer.tail, e.sclWaitRes,
             e.log ++ [Ev.sdaGet false]⟩))
    ∧ ((e.sdaPeer.headD true && e.sdaDrive) = true →
      i2c_master_send_start dev e
        = (I2C_OK,
            ⟨false, false, e.sdaPeer.tail, e.sclWaitRes,
             e.log ++ [Ev.sdaGet true, Ev.sdaSet false, Ev.delay, Ev.sclSet false]⟩)) := by
  obtain ⟨dS, cS, peer, wres, l⟩ := e
  constructor <;> intro h <;> rw [List.headD_eq_head?] at h <;>
    simp only [i2c_master_send_start, i2c_sda_get, i2c_sda_set, i2c_scl_set,
      DELAY_US, List.headD_eq_head?] <;>
    rw [h] <;> simp

/-- Witness for C5: a peer holding SDA low yields the conflict error with
no line transition; an idle bus yields success with SDA then SCL driven
low. -/
theorem c5_witness :
    i2c_master_send_start dev0 ⟨true, true, [false], [], []⟩
        = (I2C_ERROR_CONFLICT, ⟨true, true, [], [], [Ev.sdaGet false]⟩)
      ∧ i2c_master_send_start dev0 idleEnv
        = (I2C_OK, ⟨false, false, [], [],
            [Ev.sdaGet true, Ev.sdaSet false, Ev.delay, Ev.sclSet false]⟩) :=
  ⟨(c5_send_start dev0 ⟨true, true, [false], [], []⟩).1 (by decide),
   (c5_send_start dev0 idleEnv).2 (by decide)⟩

/-- An environment whose peer stretches the clock beyond the bounded
wait: the first clock wait reports the timeout. -/
def heldEnv : Env := ⟨true, false, [], [I2C_ERROR_TIMEOUT], []⟩

/-- Number of bounded clock waits performed in a log. -/
def waitCount (l : List Ev) : Nat :=
  l.countP (fun ev => match ev with | Ev.sclWait _ => true | _ => false)

/-- C6 counterexample: the claim says every operation that waits on the
clock line — including the stop condition — returns the
clock-stretch-timeout error when the peer holds the clock low beyond the
bounded wait.  At the concrete held-clock environment, `send_stop`
performs the bounded wait, the wait times out, and `send_stop`
nevertheless returns `I2C_OK`, not the timeout error. -/
theorem c6_counterexample :
    waitCount (i2c_master_send_stop dev0 heldEnv).2.log = 1
      ∧ (i2c_master_send_stop dev0 heldEnv).1 = I2C_OK
      ∧ (i2c_master_send_stop dev0 heldEnv).1 ≠ I2C_ERROR_TIMEOUT := by
  refine ⟨by decide, by decide, by decide⟩

/-- C6 amended: when the peer holds the clock low beyond the bounded wait,
the bit transfers (`send_bit`, `recv_bit`) return the
clock-stretch-timeout error; `send_stop` performs the bounded wait but
ignores its result and returns success; and `send_start` performs no
clock wait at all.  (No operation hangs: every modelled operation is a
total function.) -/
theorem c6_amended_timeout (dev : i2c_dev) (e : Env) (rest : List Int)
    (h : e.sclWaitRes = I2C_ERROR_TIMEOUT :: rest) :
    (i2c_master_recv_bit dev e).1 = I2C_ERROR_TIMEOUT
      ∧ (∀ b, (i2c_master_send_bit dev b e).1 = I2C_ERROR_TIMEOUT)
      ∧ (i2c_master_send_stop dev e).1 = I2C_OK
      ∧ (∀ e2 : Env, waitCount (i2c_master_send_start dev e2).2.log
          = waitCount e2.log) := by
  obtain ⟨dS, cS, peer, wres, l⟩ := e
  simp only [Env.mk.injEq] at h
  refine ⟨?_, ?_, ?_, ?_⟩
  · simp_all [i2c_master_recv_bit, i2c_sda_set, i2c_scl_set, i2c_scl_wait,
      DELAY_US, I2C_OK, I2C_ERROR_TIMEOUT]
  · intro b
    simp_all [i2c_master_send_bit, i2c_sda_set, i2c_scl_set, i2c_scl_wait,
      DELAY_US, I2C_OK, I2C_ERROR_TIMEOUT]
  · simp_all [i2c_master_send_stop, i2c_sda_set, i2c_scl_set, i2c_scl_wait,
      DELAY_US, I2C_OK]
  · intro e2
    rcases hv : (e2.sdaPeer.headD true && e2.sdaDrive) with _ | _ <;>
      rw [List.headD_eq_head?] at hv <;>
      simp [i2c_master_send_start, i2c_sda_get, i2c_sda_set, i2c_scl_set,
        DELAY_US, waitCount, hv, List.countP_append]

/-- Witness for C6's amended claim at the concrete held-clock
environment. -/
theorem c6_witness :
    (i2c_master_recv_bit dev0 heldEnv).1 = I2C_ERROR_TIMEOUT
      ∧ (i2c_master_send_bit dev0 true heldEnv).1 = I2C_ERROR_TIMEOUT
      ∧ (i2c_master_send_stop dev0 heldEnv).1 = I2C_OK := by
  obtain ⟨h1, h2, h3, _⟩ := c6_amended_timeout dev0 heldEnv [] rfl
  exact ⟨h1, h2 true, h3⟩

/-- C7: for every device handle, `i2c_master_send_addr` transmits the
single byte `(slave_id << 1) | 1` for a read transaction and
`(slave_id << 1) | 0` for a write transaction (it is `send_byte` applied
to exactly that value); in particular, for slave identifier `0x50` the
bits driven onto SDA during the address byte are the MSB-first binary
representation of `0xA1` for read and `0xA0` for write. -/
theorem c7_send_addr (dev : i2c_dev) (read : Bool) (e : Env) :
    i2c_master_send_addr dev read e
        = i2c_master_send_byte dev
            ((dev.slave.id <<< 1) ||| (if read then 1 else 0)) e
      ∧ ((0x50 <<< 1) ||| 1) = 0xA1
      ∧ ((0x50 <<< 1) ||| 0) = 0xA0
      ∧ (∀ r : Bool, (sdaSetsOf (i2c_master_send_addr dev0 r lowEnv).2.log).take 8
          = msbList (if r then 0xA1 else 0xA0)) := by
  refine ⟨rfl, by decide, by decide, ?_⟩
  intro r
  cases r <;> decide

/-- C8: starting from the fresh registry, the first `I2C_DEVICES_NUM` = 4
calls to `i2c_master_init` return the distinct non-null handles
`some 0`..`some 3`; after all four, each slot still holds exactly the bus
and slave configuration bindings it was created with (valid and
independent); the 5th call returns the null handle and leaves the
registry unchanged; and returning the null handle exactly when the
capacity is exhausted is init's only failure mode. -/
theorem c8_registry (b0 b1 b2 b3 b4 : i2c_bus_cfg)
    (s0 s1 s2 s3 s4 : i2c_slave_cfg) (e0 e1 e2 e3 e4 : Env) :
    (i2c_master_init b0 s0 ⟨0, []⟩ e0).1 = some 0
      ∧ (i2c_master_init b1 s1 (i2c_master_init b0 s0 ⟨0, []⟩ e0).2.1 e1).1 = some 1
      ∧ (i2c_master_init b2 s2
          (i2c_master_init b1 s1 (i2c_master_init b0 s0 ⟨0, []⟩ e0).2.1 e1).2.1 e2).1
        = some 2
      ∧ (i2c_master_init b3 s3 (i2c_master_init b2 s2
          (i2c_master_init b1 s1 (i2c_master_init b0 s0 ⟨0, []⟩ e0).2.1 e1).2.1 e2).2.1
          e3).1 = some 3
      ∧ (i2c_master_init b3 s3 (i2c_master_init b2 s2
          (i2c_master_init b1 s1 (i2c_master_init b0 s0 ⟨0, []⟩ e0).2.1 e1).2.1 e2).2.1
          e3).2.1.devices
        = [⟨b0, s0⟩, ⟨b1, s1⟩, ⟨b2, s2⟩, ⟨b3, s3⟩]
      ∧ (i2c_master_init b4 s4 (i2c_master_init b3 s3 (i2c_master_init b2 s2
          (i2c_master_init b1 s1 (i2c_master_init b0 s0 ⟨0, []⟩ e0).2.1 e1).2.1 e2).2.1
          e3).2.1 e4).1 = none
      ∧ (i2c_master_init b4 s4 (i2c_master_init b3 s3 (i2c_master_init b2 s2
          (i2c_master_init b1 s1 (i2c_master_init b0 s0 ⟨0, []⟩ e0).2.1 e1).2.1 e2).2.1
          e3).2.1 e4).2.1.devices
        = [⟨b0, s0⟩, ⟨b1, s1⟩, ⟨b2, s2⟩, ⟨b3, s3⟩]
      ∧ (∀ (b : i2c_bus_cfg) (s : i2c_slave_cfg) (r : RegState) (e : Env),
          (i2c_master_init b s r e).1 = none ↔ I2C_DEVICES_NUM ≤ r.num) := by
  refine ⟨rfl, rfl, rfl, rfl, rfl, rfl, rfl, ?_⟩
  intro b s r e
  by_cases h : I2C_DEVICES_NUM ≤ r.num <;>
    simp [i2c_master_init, h]

/-- The environment of a byte reception whose first `k` bit samples read
a peer-driven 1 with succeeding clock waits, after which the peer holds
the clock low and the `(k+1)`-th wait reports `err`. -/
def recvFailEnv (k : Nat) (err : Int) : Env :=
  ⟨true, false, List.replicate k true, List.replicate k I2C_OK ++ [err], []⟩

/-- A `recv_bit` whose clock wait succeeds (head of the wait oracle is
`I2C_OK`) and whose sample reads a released peer line. -/
theorem recv_bit_ok_cons (dev : i2c_dev) (dS cS : Bool) (peer : List Bool)
    (wres : List Int) (l : List Ev) (h : peer.headD true = true) :
    i2c_master_recv_bit dev ⟨dS, cS, peer, I2C_OK :: wres, l⟩
      = (1, ⟨true, false, peer.tail, wres, l ++ recvBitEvs⟩) := by
  rw [List.headD_eq_head?] at h
  simp [i2c_master_recv_bit, i2c_sda_set, i2c_scl_set, i2c_sda_get,
    i2c_scl_wait, DELAY_US, recvBitEvs, I2C_OK, h]

/-- A `recv_bit` whose clock wait fails: the error is returned, the
clock stays driven high, and no sample is taken. -/
theorem recv_bit_fail (dev : i2c_dev) (dS cS : Bool) (peer : List Bool)
    (wres : List Int) (l : List Ev) (err : Int) (hne : ¬ err = I2C_OK) :
    i2c_master_recv_bit dev ⟨dS, cS, peer, err :: wres, l⟩
      = (err, ⟨true, true, peer, wres,
          l ++ [Ev.sdaSet true, Ev.delay, Ev.sclSet true, Ev.sclWait err]⟩) := by
  simp [i2c_master_recv_bit, i2c_sda_set, i2c_scl_set, i2c_scl_wait,
    DELAY_US, hne]

/-- Unfolding of one iteration of the `recv_byte` loop whose bit
reception succeeded with result 1 = `I2C_OK`. -/
theorem recvByteLoop_step (dev : i2c_dev) (d i : Nat) (e e1 : Env)
    (h : i2c_master_recv_bit dev e = (1, e1)) :
    recvByteLoop dev d (i + 1) e
      = recvByteLoop dev (((d <<< 1) ||| 1) % 256) i e1 := by
  simp only [recvByteLoop, h, I2C_OK]
  simp

/-- The `recv_byte` loop aborts with the error and without a write when
the `(k+1)`-th clock wait fails, the preceding `k` bits having read 1. -/
theorem recvByteLoop_fail_at (dev : i2c_dev) :
    ∀ (i k d : Nat) (dS cS : Bool) (l : List Ev) (err : Int),
    k < i → ¬ err = I2C_OK →
    (recvByteLoop dev d i
        ⟨dS, cS, List.replicate k true, List.replicate k I2C_OK ++ [err], l⟩).1
      = err
    ∧ (recvByteLoop dev d i
        ⟨dS, cS, List.replicate k true, List.replicate k I2C_OK ++ [err], l⟩).2.1
      = none := by
  intro i
  induction i with
  | zero => intro k d dS cS l err hk; exact absurd hk (Nat.not_lt_zero k)
  | succ i ih =>
    intro k d dS cS l err hk hne
    cases k with
    | zero =>
      simp only [List.replicate, List.nil_append]
      rw [show (recvByteLoop dev d (i + 1)
          ⟨dS, cS, [], err :: [], l⟩)
        = (err, none, ⟨true, true, [], [],
            l ++ [Ev.sdaSet true, Ev.delay, Ev.sclSet true, Ev.sclWait err]⟩)
        from by
          simp only [recvByteLoop, recv_bit_fail dev dS cS [] [] l err hne]
          simp [hne]]
      exact ⟨rfl, rfl⟩
    | succ k =>
      simp only [List.replicate_succ, List.cons_append]
      rw [recvByteLoop_step dev d i _ _
        (recv_bit_ok_cons dev dS cS (true :: List.replicate k true) _ l rfl)]
      simp only [List.tail_cons]
      exact ih k _ true false (l ++ recvBitEvs) err (by omega) hne

/-- C9: for every device handle and output location, if any of the 8 bit
receptions inside `i2c_master_recv_byte` fails (here: the `(k+1)`-th clock
wait reports a negative error, the preceding `k` bits having been received
as 1), `recv_byte` returns that error and the output location is left
unchanged (`none`: the assembled byte is written only after all 8 bits
succeed). -/
theorem c9_recv_byte_error_no_write (dev : i2c_dev) (k : Fin 8) (err : Int)
    (herr : err < 0) :
    (i2c_master_recv_byte dev (recvFailEnv (k : Nat) err)).1 = err
      ∧ (i2c_master_recv_byte dev (recvFailEnv (k : Nat) err)).2.1 = none := by
  have hne : ¬ err = I2C_OK := by simp only [I2C_OK]; omega
  exact recvByteLoop_fail_at dev 8 (k : Nat) 0 true false [] err k.isLt hne

/-- Witness for C9: the 3rd bit reception times out with error -2; the
byte reception returns -2 and writes nothing. -/
theorem c9_witness :
    (-2 : Int) < 0
      ∧ (i2c_master_recv_byte dev0 (recvFailEnv 2 (-2))).1 = -2
      ∧ (i2c_master_recv_byte dev0 (recvFailEnv 2 (-2))).2.1 = none :=
  ⟨by decide, (c9_recv_byte_error_no_write dev0 2 (-2) (by decide)).1,
    (c9_recv_byte_error_no_write dev0 2 (-2) (by decide)).2⟩

/-- C10: `i2c_master_send_bit` and `i2c_master_recv_bit` drive the clock
line back low only on their fully successful path: on a clock-wait
failure return both leave the clock driven high, and on `send_bit`'s
arbitration-detection return (bit argument 1 but the data line reads 0,
result 0) the clock is likewise left driven high; on the fully successful
path both leave the clock driven low. -/
theorem c10_scl_left_high (dev : i2c_dev) (b : Bool) (e e2 : Env)
    (err : Int) (rest : List Int) (p2 : List Bool) :
    (e.sclWaitRes = err :: rest → err ≠ I2C_OK →
      ((i2c_master_recv_bit dev e).1 = err
        ∧ (i2c_master_recv_bit dev e).2.sclDrive = true)
      ∧ ((i2c_master_send_bit dev b e).1 = err
        ∧ (i2c_master_send_bit dev b e).2.sclDrive = true))
    ∧ (e2.sclWaitRes = [] → e2.sdaPeer = false :: p2 →
      (i2c_master_send_bit dev true e2).1 = 0
        ∧ (i2c_master_send_bit dev true e2).2.sclDrive = true)
    ∧ (e2.sclWaitRes = [] → e2.sdaPeer = [] →
      (i2c_master_send_bit dev b e2).2.sclDrive = false
        ∧ (i2c_master_recv_bit dev e2).2.sclDrive = false) := by
  obtain ⟨dS, cS, peer, wres, l⟩ := e
  obtain ⟨dS2, cS2, peer2, wres2, l2⟩ := e2
  refine ⟨?_, ?_, ?_⟩
  · intro hw hne
    simp only [Env.mk.injEq] at hw ⊢
    subst hw
    constructor <;> constructor <;>
      simp [i2c_master_recv_bit, i2c_master_send_bit, i2c_sda_set,
        i2c_scl_set, i2c_scl_wait, DELAY_US, hne]
  · intro hw hp
    simp only at hw hp
    subst hw; subst hp
    constructor <;>
      simp [i2c_master_send_bit, i2c_sda_set, i2c_scl_set, i2c_scl_wait,
        i2c_sda_get, DELAY_US, I2C_OK]
  · intro hw hp
    simp only at hw hp
    subst hw; subst hp
    constructor
    · cases b <;>
        simp [i2c_master_send_bit, i2c_sda_set, i2c_scl_set, i2c_scl_wait,
          i2c_sda_get, DELAY_US, I2C_OK]
    · simp [i2c_master_recv_bit, i2c_sda_set, i2c_scl_set, i2c_scl_wait,
        i2c_sda_get, DELAY_US, I2C_OK]

/-- Witness for C10: a timed-out wait leaves the clock driven high after
`recv_bit`; an arbitration loss leaves it driven high after `send_bit`;
a fully successful `send_bit` leaves it driven low. -/
theorem c10_witness :
    ((i2c_master_recv_bit dev0 heldEnv).1 = I2C_ERROR_TIMEOUT
        ∧ (i2c_master_recv_bit dev0 heldEnv).2.sclDrive = true)
      ∧ ((i2c_master_send_bit dev0 true ⟨true, true, [false], [], []⟩).1 = 0
        ∧ (i2c_master_send_bit dev0 true ⟨true, true, [false], [], []⟩).2.sclDrive = true)
      ∧ (i2c_master_send_bit dev0 false idleEnv).2.sclDrive = false :=
  ⟨(c10_scl_left_high dev0 false heldEnv idleEnv I2C_ERROR_TIMEOUT [] []).1
      rfl (by decide) |>.1,
   (c10_scl_left_high dev0 true heldEnv ⟨true, true, [false], [], []⟩
      I2C_ERROR_TIMEOUT [] []).2.1 rfl rfl,
   ((c10_scl_left_high dev0 false heldEnv idleEnv I2C_ERROR_TIMEOUT [] []).2.2
      rfl rfl).1⟩
